import Mathlib

/-!
Formal model of the GitSpace plugin installation pipeline from `src/plugins.go`
(`installPlugin`, `installFromGitspaceCatalog`, `downloadFile`,
`loadPluginManifest`, `copyFile`) together with the catalog data model from
`src/plugin/types.go`.

Modelling conventions:
* A filesystem path is a list of components rooted at `/`.  Go's
  `filepath.Clean` on a rooted path drops empty and `.` components and lets
  `..` remove the preceding component (a `..` at the root is dropped); this is
  `cleanPath`.  `filepath.Join` is concatenation followed by `Clean`
  (`joinRel`).
* The filesystem is an association list from paths to files.  Directories are
  implicit: `os.MkdirAll` never fails in the model and creates no visible
  entry, and a path is a directory exactly when some entry lies strictly
  below it.
* A file's content is either an abstract well-formed TOML manifest document
  (the value `toml.Unmarshal` decodes) or raw bytes on which `toml.Unmarshal`
  fails.  This models the parser at its interface without modelling TOML
  syntax.
* `os.WriteFile(dst, data, perm)` keeps the existing permission bits when the
  destination already exists and applies `perm` only on creation; `writeFile`
  mirrors this.
* Network effects (`http.Get` in `downloadFile`, `git clone`, the catalog
  fetch) are oracles supplied in a `NetEnv`. The external `go mod init` and
  `go mod edit` invocations are modelled by their documented filesystem
  effect: creating respectively rewriting `go.mod` in the plugin directory
  (`goBootstrap`); `go mod tidy` is modelled as having no further effect.
-/

/-! ## Paths -/

abbrev FsPath := List String

/-- One step of Go `filepath.Clean` on a rooted path: empty and `.` components
are dropped, `..` removes the preceding component (and is dropped at root). -/
def cleanStep (acc : FsPath) (c : String) : FsPath :=
  if c = "" ∨ c = "." then acc
  else if c = ".." then acc.dropLast
  else acc ++ [c]

/-- Go `filepath.Clean` on a rooted path given by its components. -/
def cleanPath (p : FsPath) : FsPath := p.foldl cleanStep []

/-- Go `filepath.Join base rel`: concatenation followed by `Clean`. -/
def joinRel (base : FsPath) (rel : List String) : FsPath := cleanPath (base ++ rel)

/-- `leadsTo d p` holds when `p` lies inside the directory `d` (inclusively):
`d` is an initial segment of `p`. -/
def leadsTo : FsPath → FsPath → Bool
  | [], _ => true
  | _ :: _, [] => false
  | a :: as, b :: bs => decide (a = b) && leadsTo as bs

/-- A component that `filepath.Clean` passes through unchanged. -/
def cleanComp (c : String) : Bool := decide (c ≠ "" ∧ c ≠ "." ∧ c ≠ "..")

/-- A relative path that `filepath.Clean` leaves alone (no `..` traversal). -/
def cleanRel (p : List String) : Bool := p.all cleanComp

/-- Render a path the way the Go code renders `source.Path` in messages. -/
def pathToString (p : FsPath) : String := String.intercalate "/" p

/-- Go `filepath.Ext` of one path component: the suffix starting at the final
dot, empty when there is no dot. -/
def extOf (s : String) : String :=
  let rev := s.data.reverse
  let after := rev.takeWhile (fun c => c != '.')
  if after.length = rev.length then ""
  else String.mk ('.' :: after.reverse)

/-- Go `filepath.Ext` of a path (the extension of its final element). -/
def pathExt (p : FsPath) : String := extOf (p.getLastD "")

/-! ## Manifest and catalog data model (src/plugins.go, src/plugin/types.go) -/

/-- The nested `repository` table of a manifest source
(`PluginManifest.Plugin.Sources[i].Repository` in `src/plugins.go`). -/
structure SourceRepository where
  type : String
  url : String
  branch : String
deriving DecidableEq

/-- One entry of `PluginManifest.Plugin.Sources`.  The Go `path` field is a
relative path string; it is modelled by its components. -/
structure PluginSource where
  path : List String
  entry_point : String
  repository : SourceRepository
deriving DecidableEq

/-- `PluginManifest` from `src/plugins.go` (the fields of the nested `Plugin`
table, flattened). -/
structure PluginManifest where
  name : String
  version : String
  description : String
  author : String
  sources : List PluginSource
deriving DecidableEq

/-- Content of a file: either a well-formed TOML plugin-manifest document
(the value `toml.Unmarshal` decodes from it) or raw bytes on which
`toml.Unmarshal` fails. -/
inductive FileData where
  | manifestDoc (m : PluginManifest)
  | raw (s : String)
deriving DecidableEq

/-- An on-disk file: its content and its permission mode bits. -/
structure File where
  data : FileData
  mode : Nat
deriving DecidableEq

/-- The `repository` table of a catalog entry (`src/plugin/types.go`). -/
structure CatalogRepository where
  type : String
  url : String
deriving DecidableEq

/-- A catalog plugin entry (`Plugin` in `src/plugin/types.go`; the runtime
handles `cmd`, `stdin`, `stdout` are process state, not data, and are not part
of the fetched index). -/
structure CatalogPlugin where
  name : String
  path : String
  version : String
  description : String
  repository : CatalogRepository
deriving DecidableEq

/-- A catalog template entry (`Template` in `src/plugin/types.go`). -/
structure CatalogTemplate where
  version : String
  description : String
  path : String
  repository : CatalogRepository
deriving DecidableEq

/-- The `last_updated` table of the catalog header. -/
structure CatalogLastUpdated where
  date : String
  commitHash : String
deriving DecidableEq

/-- The `catalog` header table of the index. -/
structure CatalogHeader where
  name : String
  description : String
  version : String
  lastUpdated : CatalogLastUpdated
deriving DecidableEq

/-- `GitspaceCatalog` from `src/plugin/types.go`; the Go string-keyed maps are
modelled as association lists. -/
structure GitspaceCatalog where
  catalog : CatalogHeader
  plugins : List (String × CatalogPlugin)
  templates : List (String × CatalogTemplate)
deriving DecidableEq

/-- Lookup in the catalog's `plugins` map (`catalog.Plugins[catalogItem]`). -/
def lookupStr : List (String × CatalogPlugin) → String → Option CatalogPlugin
  | [], _ => none
  | (n, v) :: r, k => if n = k then some v else lookupStr r k

/-! ## Filesystem model -/

/-- The filesystem: an association list from paths to files (first match
wins; `writeFile` keeps it duplicate-free at the written path). -/
abbrev FS := List (FsPath × File)

/-- Look a path up in the filesystem. -/
def lookupFS : FS → FsPath → Option File
  | [], _ => none
  | (q, f) :: r, p => if q = p then some f else lookupFS r p

/-- Drop every entry stored at exactly `p`. -/
def erasePath : FS → FsPath → FS
  | [], _ => []
  | (q, f) :: r, p => if q = p then erasePath r p else (q, f) :: erasePath r p

/-- The mode an `os.WriteFile` call leaves on `p`: the pre-existing mode when
the file already exists, otherwise the requested creation mode. -/
def writeMode (fs : FS) (p : FsPath) (perm : Nat) : Nat :=
  match lookupFS fs p with
  | some old => old.mode
  | none => perm

/-- `os.WriteFile(p, d, perm)`: truncating write; permission bits are applied
only when the file is created. -/
def writeFile (fs : FS) (p : FsPath) (d : FileData) (perm : Nat) : FS :=
  (p, ⟨d, writeMode fs p perm⟩) :: erasePath fs p

/-- `os.RemoveAll(p)`: delete `p` and everything below it. -/
def removeAll : FS → FsPath → FS
  | [], _ => []
  | (q, f) :: r, p => if leadsTo p q then removeAll r p else (q, f) :: removeAll r p

/-- A path is a directory when some entry lies strictly below it. -/
def isDirFS (fs : FS) (p : FsPath) : Bool :=
  fs.any (fun e => leadsTo p e.1 && decide (p ≠ e.1))

/-- Result of `os.Stat`: a directory, a regular file, or an error (`none`). -/
inductive StatKind where
  | dir
  | file
deriving DecidableEq

/-- `os.Stat(p)` in the model: directory when entries lie strictly below `p`,
file when `p` itself holds an entry, error otherwise. -/
def statLocal (fs : FS) (p : FsPath) : Option StatKind :=
  if isDirFS fs p then some StatKind.dir
  else if (lookupFS fs p).isSome then some StatKind.file
  else none

/-! ## Basic path lemmas -/

theorem leadsTo_append (p q : FsPath) : leadsTo p (p ++ q) = true := by
  induction p with
  | nil => rfl
  | cons a as ih => simp [leadsTo, ih]

theorem leadsTo_refl (p : FsPath) : leadsTo p p = true := by
  have h := leadsTo_append p []
  simpa using h

theorem cleanComp_iff (c : String) :
    cleanComp c = true ↔ (c ≠ "" ∧ c ≠ "." ∧ c ≠ "..") := by
  simp [cleanComp]

theorem foldl_cleanStep_of_clean (rel : List String) (h : cleanRel rel = true) :
    ∀ acc : FsPath, rel.foldl cleanStep acc = acc ++ rel := by
  induction rel with
  | nil => intro acc; simp
  | cons c cs ih =>
    intro acc
    have hc : cleanComp c = true ∧ cleanRel cs = true := by
      simpa [cleanRel] using h
    obtain ⟨h1, h2, h3⟩ := (cleanComp_iff c).mp hc.1
    have hstep : cleanStep acc c = acc ++ [c] := by
      simp [cleanStep, h1, h2, h3]
    simp [List.foldl, hstep, ih hc.2]

theorem cleanPath_append_clean (a : FsPath) (rel : List String)
    (h : cleanRel rel = true) : cleanPath (a ++ rel) = cleanPath a ++ rel := by
  unfold cleanPath
  rw [List.foldl_append]
  exact foldl_cleanStep_of_clean rel h _

theorem cleanPath_of_clean (p : FsPath) (h : cleanRel p = true) :
    cleanPath p = p := by
  have := cleanPath_append_clean [] p h
  simpa [cleanPath] using this

theorem cleanRel_dropLast (p : FsPath) (h : cleanRel p = true) :
    cleanRel p.dropLast = true := by
  rw [cleanRel, List.all_eq_true] at h ⊢
  intro c hc
  exact h c ((List.dropLast_sublist p).subset hc)

theorem cleanRel_foldl_cleanStep (p : FsPath) :
    ∀ acc : FsPath, cleanRel acc = true → cleanRel (p.foldl cleanStep acc) = true := by
  induction p with
  | nil => intro acc hacc; simpa using hacc
  | cons c cs ih =>
    intro acc hacc
    have hstep : cleanRel (cleanStep acc c) = true := by
      unfold cleanStep
      split
      · exact hacc
      · split
        · exact cleanRel_dropLast _ hacc
        · rename_i hne h2
          rw [cleanRel, List.all_eq_true]
          intro x hx
          rcases List.mem_append.mp hx with hx | hx
          · exact (List.all_eq_true.mp hacc) x hx
          · have : x = c := by simpa using hx
            subst this
            apply (cleanComp_iff x).mpr
            push_neg at hne
            exact ⟨hne.1, hne.2, h2⟩
    exact ih _ hstep

theorem cleanRel_cleanPath (p : FsPath) : cleanRel (cleanPath p) = true :=
  cleanRel_foldl_cleanStep p [] rfl

theorem joinRel_of_clean (base : FsPath) (rel : List String)
    (hb : cleanRel base = true) (hr : cleanRel rel = true) :
    joinRel base rel = base ++ rel := by
  unfold joinRel
  rw [cleanPath_append_clean _ _ hr, cleanPath_of_clean _ hb]

theorem leadsTo_joinRel (base : FsPath) (rel : List String)
    (hb : cleanRel base = true) (hr : cleanRel rel = true) :
    leadsTo base (joinRel base rel) = true := by
  rw [joinRel_of_clean _ _ hb hr]
  exact leadsTo_append base rel

theorem ne_of_leadsTo_ne (pd q r : FsPath) (hq : leadsTo pd q = false)
    (hr : leadsTo pd r = true) : q ≠ r := by
  intro h
  subst h
  rw [hq] at hr
  exact Bool.false_ne_true hr

/-! ## Basic filesystem lemmas -/

theorem lookupFS_erasePath (fs : FS) (p q : FsPath) :
    lookupFS (erasePath fs p) q = if q = p then none else lookupFS fs q := by
  induction fs with
  | nil => simp [erasePath, lookupFS]
  | cons e r ih =>
    obtain ⟨s, f⟩ := e
    by_cases hsp : s = p
    · subst hsp
      by_cases hqp : q = s
      · subst hqp
        simp [erasePath, lookupFS, ih]
      · simp [erasePath, lookupFS, hqp, ih, Ne.symm hqp]
    · by_cases hsq : s = q
      · subst hsq
        simp [erasePath, lookupFS, hsp]
      · simp [erasePath, lookupFS, hsp, hsq, ih]

theorem lookupFS_writeFile (fs : FS) (p : FsPath) (d : FileData) (perm : Nat)
    (q : FsPath) :
    lookupFS (writeFile fs p d perm) q =
      if p = q then some ⟨d, writeMode fs p perm⟩ else lookupFS fs q := by
  unfold writeFile
  by_cases h : p = q
  · subst h
    simp [lookupFS]
  · have h2 : ¬ q = p := fun hh => h hh.symm
    simp [lookupFS, h, h2, lookupFS_erasePath]

theorem isSome_lookupFS_writeFile (fs : FS) (p : FsPath) (d : FileData)
    (perm : Nat) (q : FsPath) (h : (lookupFS fs q).isSome = true) :
    (lookupFS (writeFile fs p d perm) q).isSome = true := by
  rw [lookupFS_writeFile]
  split
  · rfl
  · exact h

theorem lookupFS_removeAll (fs : FS) (d q : FsPath) :
    lookupFS (removeAll fs d) q = if leadsTo d q then none else lookupFS fs q := by
  induction fs with
  | nil => simp [removeAll, lookupFS]
  | cons e r ih =>
    obtain ⟨s, f⟩ := e
    by_cases hds : leadsTo d s = true
    · by_cases hsq : s = q
      · subst hsq
        simp [removeAll, hds, ih]
      · simp [removeAll, hds, ih, lookupFS, hsq]
    · rw [Bool.not_eq_true] at hds
      by_cases hsq : s = q
      · subst hsq
        simp [removeAll, hds, lookupFS]
      · simp [removeAll, hds, lookupFS, hsq, ih]

theorem lookupFS_removeAll_under (fs : FS) (d q : FsPath)
    (h : leadsTo d q = true) : lookupFS (removeAll fs d) q = none := by
  rw [lookupFS_removeAll, h]
  rfl

theorem lookupFS_removeAll_not_under (fs : FS) (d q : FsPath)
    (h : leadsTo d q = false) : lookupFS (removeAll fs d) q = lookupFS fs q := by
  rw [lookupFS_removeAll, h]
  rfl

/-! ## Operations from src/plugins.go -/

/-- `loadPluginManifest` (src/plugins.go:268-280): read the file and
`toml.Unmarshal` it.  No validation of any kind is performed on the decoded
manifest. -/
def loadPluginManifest (fs : FS) (path : FsPath) : Except String PluginManifest :=
  match lookupFS fs path with
  | none => Except.error "failed to read manifest file"
  | some f =>
    match f.data with
    | FileData.manifestDoc m => Except.ok m
    | FileData.raw _ => Except.error "failed to decode manifest"

/-- `copyFile` (src/plugins.go:282-300): `os.MkdirAll` on the destination
directory (implicit in the model), read the source, then
`os.WriteFile(dst, input, 0644)`.  On a read failure nothing is written. -/
def copyFile (fs : FS) (src dst : FsPath) : FS × Option String :=
  match lookupFS fs src with
  | none => (fs, some "failed to read source file")
  | some f => (writeFile fs dst f.data 0o644, none)

/-- The source-copy loop of `installPlugin` (src/plugins.go:149-157): copy each
declared source from the staged root to the same relative path under the
plugin directory, aborting on the first failure with an error naming the
path. -/
def copyPluginSources (fs : FS) (sourceDir pluginDir : FsPath) :
    List PluginSource → FS × Option String
  | [] => (fs, none)
  | s :: rest =>
    match copyFile fs (joinRel sourceDir s.path) (joinRel pluginDir s.path) with
    | (fs2, some e) =>
      (fs2, some ("failed to copy plugin file " ++ pathToString s.path ++ ": " ++ e))
    | (fs2, none) => copyPluginSources fs2 sourceDir pluginDir rest

/-- The Go-toolchain bootstrapping of `installPlugin` (src/plugins.go:159-185):
`go mod init` when `go.mod` is absent, then `go mod edit -go <version>` and
`go mod tidy`.  The external tool invocations are modelled by their documented
filesystem effect: creating respectively rewriting `go.mod` (content is
abstracted; `go mod tidy` has no further modelled effect). -/
def goBootstrap (fs : FS) (pluginDir : FsPath) : FS × Option String :=
  let goModPath := joinRel pluginDir ["go.mod"]
  let fs1 :=
    if (lookupFS fs goModPath).isSome then fs
    else writeFile fs goModPath
      (FileData.raw "module github.com/ssotops/gitspace/plugins") 0o644
  (writeFile fs1 goModPath
    (FileData.raw "module github.com/ssotops/gitspace/plugins go-edited") 0o644,
   none)

/-- The steps of `installPlugin` after the plugin directory has been computed
(src/plugins.go:126-188): destructively remove any existing destination,
recreate it, copy the manifest, copy the declared sources, bootstrap
`go.mod`. -/
def installStage2 (fs : FS) (pluginDir manifestPath sourceDir : FsPath)
    (manifest : PluginManifest) : FS × Option String :=
  match copyFile (removeAll fs pluginDir) manifestPath
      (joinRel pluginDir ["gitspace-plugin.toml"]) with
  | (fs2, some e) => (fs2, some ("failed to copy manifest file: " ++ e))
  | (fs2, none) =>
    match copyPluginSources fs2 sourceDir pluginDir manifest.sources with
    | (fs3, some e) => (fs3, some e)
    | (fs3, none) => goBootstrap fs3 pluginDir

/-- `installPlugin` from the point where `manifestPath` and `sourceDir` have
been resolved (src/plugins.go:119-188): load the manifest, then install into
`<pluginsDir>/<manifest.name>`. -/
def installResolved (fs : FS) (pluginsDir manifestPath sourceDir : FsPath) :
    FS × Option String :=
  match loadPluginManifest fs manifestPath with
  | Except.error e => (fs, some ("failed to load manifest: " ++ e))
  | Except.ok manifest =>
    installStage2 fs (joinRel pluginsDir [manifest.name]) manifestPath sourceDir
      manifest

/-- The local branch of `installPlugin` (src/plugins.go:95-117 followed by the
shared tail): a directory source keeps `<dir>/gitspace-plugin.toml` as
manifest, a `.toml` file is itself the manifest with its parent directory as
source root, anything else is an invalid source. -/
def installPluginLocal (fs : FS) (pluginsDir absSource : FsPath) :
    FS × Option String :=
  match statLocal fs absSource with
  | none => (fs, some "failed to get source info")
  | some StatKind.dir =>
    installResolved fs pluginsDir (joinRel absSource ["gitspace-plugin.toml"])
      absSource
  | some StatKind.file =>
    if pathExt absSource = ".toml" then
      installResolved fs pluginsDir absSource absSource.dropLast
    else (fs, some "invalid source: must be a directory or .toml file")

/-! ## Network environment and the catalog / remote branches -/

/-- The external collaborators of the installer: the catalog fetch
(`lib.FetchGitspaceCatalog`), per-URL HTTP download (`http.Get` in
`downloadFile`, `none` modelling any non-200 response or transport error) and
`git clone` (returning the cloned tree as paths relative to the target
directory). -/
structure NetEnv where
  catalogIndex : Option GitspaceCatalog
  download : String → Option FileData
  clone : String → Option (List (FsPath × File))

/-- `fetchGitspaceCatalog` (src/plugins.go:504-506). -/
def fetchGitspaceCatalog (env : NetEnv) : Option GitspaceCatalog :=
  env.catalogIndex

/-- `downloadFile` (src/plugins.go:247-266): HTTP GET, then create the file
and copy the body into it (`os.Create` uses mode 0666 before umask). -/
def downloadFile (env : NetEnv) (fs : FS) (url : String) (filePath : FsPath) :
    FS × Option String :=
  match env.download url with
  | none => (fs, some "bad status")
  | some d => (writeFile fs filePath d 0o666, none)

/-- The raw-GitHub base URL for a catalog entry (src/plugins.go:210). -/
def catalogRawURL (pl : CatalogPlugin) : String :=
  "https://raw.githubusercontent.com/ssotops/gitspace-catalog/master/" ++ pl.path

/-- URL of the catalog entry's manifest (src/plugins.go:220). -/
def catalogManifestURL (pl : CatalogPlugin) : String :=
  catalogRawURL pl ++ "/gitspace-plugin.toml"

/-- URL of one declared source of a catalog entry (src/plugins.go:235). -/
def catalogSourceURL (pl : CatalogPlugin) (s : PluginSource) : String :=
  catalogRawURL pl ++ "/" ++ pathToString s.path

/-- The download loop of `installFromGitspaceCatalog`
(src/plugins.go:233-241). -/
def downloadSources (env : NetEnv) (fs : FS) (tempDir : FsPath)
    (pl : CatalogPlugin) : List PluginSource → FS × Option String
  | [] => (fs, none)
  | s :: rest =>
    match downloadFile env fs (catalogSourceURL pl s) (joinRel tempDir s.path) with
    | (fs1, some e) =>
      (fs1, some ("failed to download source file " ++ pathToString s.path ++ ": " ++ e))
    | (fs1, none) => downloadSources env fs1 tempDir pl rest

/-- Result of a catalog installation: the final filesystem, the error (if
any), and whether the temporary staging directory was ever created
(`os.MkdirTemp`, src/plugins.go:213). -/
structure CatalogResult where
  fs : FS
  err : Option String
  tempCreated : Bool
deriving DecidableEq

/-- `installFromGitspaceCatalog` (src/plugins.go:191-245): fetch the catalog,
look the item up, check its path, create a temporary directory (freshness of
`tempDir` is the caller's obligation), download the manifest and every
declared source into it, install from it, and — via the deferred
`os.RemoveAll(tempDir)` — remove the temporary directory on every path that
created it.  The recursive `installPlugin(logger, tempDir)` call resolves its
argument as a local directory source, hence `installPluginLocal`. -/
def installFromGitspaceCatalog (env : NetEnv) (fs : FS)
    (pluginsDir tempDir : FsPath) (catalogItem : String) : CatalogResult :=
  match fetchGitspaceCatalog env with
  | none => ⟨fs, some "failed to fetch Gitspace Catalog", false⟩
  | some catalog =>
    match lookupStr catalog.plugins catalogItem with
    | none =>
      ⟨fs, some ("plugin " ++ catalogItem ++ " not found in Gitspace Catalog"),
       false⟩
    | some pl =>
      if pl.path = "" then
        ⟨fs, some ("no path found for plugin " ++ catalogItem ++
          " in Gitspace Catalog"), false⟩
      else
        match downloadFile env fs (catalogManifestURL pl)
            (joinRel tempDir ["gitspace-plugin.toml"]) with
        | (fs1, some e) =>
          ⟨removeAll fs1 tempDir,
           some ("failed to download gitspace-plugin.toml: " ++ e), true⟩
        | (fs1, none) =>
          match loadPluginManifest fs1 (joinRel tempDir ["gitspace-plugin.toml"]) with
          | Except.error e =>
            ⟨removeAll fs1 tempDir,
             some ("failed to load plugin manifest: " ++ e), true⟩
          | Except.ok pluginManifest =>
            match downloadSources env fs1 tempDir pl pluginManifest.sources with
            | (fs2, some e) => ⟨removeAll fs2 tempDir, some e, true⟩
            | (fs2, none) =>
              match installPluginLocal fs2 pluginsDir tempDir with
              | (fs3, e) => ⟨removeAll fs3 tempDir, e, true⟩

/-- Go `strings.HasPrefix(s, pre)`, on the characters of the strings. -/
def hasPrefixStr (s pre : String) : Bool :=
  List.isPrefixOf pre.data s.data

/-- `strings.HasPrefix(source, "http://") || strings.HasPrefix(source,
"https://")` (src/plugins.go:68). -/
def isRemoteSource (s : String) : Bool :=
  hasPrefixStr s "http://" || hasPrefixStr s "https://"

/-- `strings.HasPrefix(source, "catalog://")` (src/plugins.go:69). -/
def isCatalogSource (s : String) : Bool :=
  hasPrefixStr s "catalog://"

/-- `strings.TrimPrefix(source, "catalog://")` (src/plugins.go:77). -/
def trimCatalogScheme (s : String) : String :=
  if hasPrefixStr s "catalog://" then s.drop 10 else s

/-- `installPlugin` (src/plugins.go:59-189): dispatch on the source string.
`absPath` models `filepath.Abs` (it closes over the working directory);
`tempDir` is the fresh temporary directory used by the catalog and remote
branches. -/
def installPlugin (env : NetEnv) (fs : FS) (pluginsDir : FsPath)
    (absPath : String → FsPath) (tempDir : FsPath) (source : String) :
    FS × Option String :=
  if isCatalogSource source then
    match installFromGitspaceCatalog env fs pluginsDir tempDir
        (trimCatalogScheme source) with
    | r => (r.fs, r.err)
  else if isRemoteSource source then
    match env.clone source with
    | none => (removeAll fs tempDir, some "failed to clone remote repository")
    | some tree =>
      match installResolved
          (tree.foldl (fun acc e => writeFile acc (joinRel tempDir e.1) e.2.data e.2.mode) fs)
          pluginsDir (joinRel tempDir ["gitspace-plugin.toml"]) tempDir with
      | (fs2, e) => (removeAll fs2 tempDir, e)
  else installPluginLocal fs pluginsDir (absPath source)

/-! ## Operation lemmas -/

theorem copyFile_ok (fs : FS) (src dst : FsPath) (f : File)
    (h : lookupFS fs src = some f) :
    copyFile fs src dst = (writeFile fs dst f.data 0o644, none) := by
  simp [copyFile, h]

theorem copyFile_missing (fs : FS) (src dst : FsPath)
    (h : lookupFS fs src = none) :
    copyFile fs src dst = (fs, some "failed to read source file") := by
  simp [copyFile, h]

theorem loadPluginManifest_ok_lookup (fs : FS) (p : FsPath) (m : PluginManifest)
    (h : loadPluginManifest fs p = Except.ok m) :
    ∃ md, lookupFS fs p = some ⟨FileData.manifestDoc m, md⟩ := by
  unfold loadPluginManifest at h
  cases hl : lookupFS fs p with
  | none => rw [hl] at h; cases h
  | some f =>
    rw [hl] at h
    obtain ⟨data, mode⟩ := f
    cases data with
    | manifestDoc m2 =>
      simp at h
      subst h
      exact ⟨mode, rfl⟩
    | raw s => simp at h

theorem loadPluginManifest_congr (a b : FS) (p : FsPath)
    (h : lookupFS a p = lookupFS b p) :
    loadPluginManifest a p = loadPluginManifest b p := by
  unfold loadPluginManifest
  rw [h]

/-! ## Claim C9 -/

/-- Claim C9: if loading or parsing the manifest fails, `installPlugin`
returns the error before touching the destination — the filesystem (and in
particular any previously installed plugin directory) is returned exactly as
it was. -/
theorem c9_load_failure_leaves_destination (fs : FS)
    (pluginsDir manifestPath sourceDir : FsPath) (e : String)
    (hload : loadPluginManifest fs manifestPath = Except.error e) :
    installResolved fs pluginsDir manifestPath sourceDir =
      (fs, some ("failed to load manifest: " ++ e)) := by
  simp [installResolved, hload]

def c9fs : FS :=
  [ (["s", "gitspace-plugin.toml"], ⟨FileData.raw "not a manifest", 0o644⟩),
    (["home", "plugins", "old", "gitspace-plugin.toml"], ⟨FileData.raw "old install", 0o644⟩) ]

theorem c9_witness :
    installResolved c9fs ["home", "plugins"] ["s", "gitspace-plugin.toml"] ["s"] =
      (c9fs, some ("failed to load manifest: " ++ "failed to decode manifest")) :=
  c9_load_failure_leaves_destination c9fs ["home", "plugins"]
    ["s", "gitspace-plugin.toml"] ["s"] "failed to decode manifest" rfl

/-! ## Claim C1 -/

/-- A manifest whose single source path escapes the staging root by `..`
traversal. -/
def evilManifest : PluginManifest :=
  { name := "evil", version := "0.1.0", description := "", author := "",
    sources := [{ path := ["..", "..", "etc", "passwd"], entry_point := "main",
                  repository := ⟨"", "", ""⟩ }] }

/-- Staging root `/srv/stage` holding the traversal manifest, plus the system
file `/etc/passwd` that the traversal reaches. -/
def c1fs : FS :=
  [ (["srv", "stage", "gitspace-plugin.toml"], ⟨FileData.manifestDoc evilManifest, 0o644⟩),
    (["etc", "passwd"], ⟨FileData.raw "root:x:0:0:root", 0o600⟩) ]

/-- Claim C1 (code bug): for the manifest declaring source path
`../../etc/passwd`, validation does NOT fail — `loadPluginManifest` performs
no validation and accepts it — and installation succeeds, copying
`/etc/passwd` to the `filepath.Join`-cleaned destination
`/home/etc/passwd`, which lies outside the plugin's destination directory
`/home/plugins/evil`. -/
theorem c1_path_escape_not_rejected :
    loadPluginManifest c1fs ["srv", "stage", "gitspace-plugin.toml"] =
      Except.ok evilManifest ∧
    (installResolved c1fs ["home", "plugins"]
        ["srv", "stage", "gitspace-plugin.toml"] ["srv", "stage"]).2 = none ∧
    lookupFS (installResolved c1fs ["home", "plugins"]
        ["srv", "stage", "gitspace-plugin.toml"] ["srv", "stage"]).1
      ["home", "etc", "passwd"] = some ⟨FileData.raw "root:x:0:0:root", 0o644⟩ :=
  ⟨rfl, rfl, rfl⟩

/-! ## Claim C3 -/

/-- A structurally valid manifest violating the non-empty-`sources`
invariant. -/
def emptySourcesManifest : PluginManifest :=
  { name := "empty", version := "1.0.0", description := "", author := "",
    sources := [] }

/-- A structurally valid manifest with an empty `entry_point`. -/
def emptyEntryManifest : PluginManifest :=
  { name := "noentry", version := "1.0.0", description := "", author := "",
    sources := [{ path := ["main.go"], entry_point := "",
                  repository := ⟨"", "", ""⟩ }] }

def c3fs : FS :=
  [(["s3", "gitspace-plugin.toml"], ⟨FileData.manifestDoc emptySourcesManifest, 0o644⟩)]

def c3fsEntry : FS :=
  [ (["s4", "gitspace-plugin.toml"], ⟨FileData.manifestDoc emptyEntryManifest, 0o644⟩),
    (["s4", "main.go"], ⟨FileData.raw "package main", 0o644⟩) ]

/-- Claim C3 counterexample: a parsed manifest with an empty `sources` list,
and one with an empty `entry_point`, are both accepted by
`loadPluginManifest` (no `Invalid` error) and installation from them
succeeds, contradicting the claim that validation rejects them and
installation fails. -/
theorem c3_counterexample :
    loadPluginManifest c3fs ["s3", "gitspace-plugin.toml"] =
      Except.ok emptySourcesManifest ∧
    (installResolved c3fs ["home", "plugins"] ["s3", "gitspace-plugin.toml"] ["s3"]).2 = none ∧
    loadPluginManifest c3fsEntry ["s4", "gitspace-plugin.toml"] =
      Except.ok emptyEntryManifest ∧
    (installResolved c3fsEntry ["home", "plugins"] ["s4", "gitspace-plugin.toml"] ["s4"]).2 = none :=
  ⟨rfl, rfl, rfl, rfl⟩

/-- The amended C3 property: manifest loading applies no invariant
validation — any parsed manifest document is returned as-is — and for an
invariant-violating manifest with an empty `sources` list the installation
even succeeds outright (when the manifest file itself is readable and not
inside the destination). -/
def NoInvariantValidation (fs : FS)
    (pluginsDir manifestPath sourceDir : FsPath) (m : PluginManifest) : Prop :=
  loadPluginManifest fs manifestPath = Except.ok m ∧
  (m.sources = [] →
    leadsTo (joinRel pluginsDir [m.name]) manifestPath = false →
    (installResolved fs pluginsDir manifestPath sourceDir).2 = none)

/-- Claim C3 (amended): structurally valid but invariant-violating manifest
documents (empty `sources`, empty `entry_point`) are accepted unchanged by
manifest loading, and installation from an empty-`sources` manifest
succeeds. -/
theorem c3_amended_no_validation (fs : FS)
    (pluginsDir manifestPath sourceDir : FsPath) (m : PluginManifest) (md : Nat)
    (hmp : lookupFS fs manifestPath = some ⟨FileData.manifestDoc m, md⟩) :
    NoInvariantValidation fs pluginsDir manifestPath sourceDir m := by
  have hload : loadPluginManifest fs manifestPath = Except.ok m := by
    simp [loadPluginManifest, hmp]
  refine ⟨hload, ?_⟩
  intro hs hout
  have hlk : lookupFS (removeAll fs (joinRel pluginsDir [m.name])) manifestPath =
      some ⟨FileData.manifestDoc m, md⟩ := by
    rw [lookupFS_removeAll_not_under _ _ _ hout]
    exact hmp
  simp [installResolved, hload, installStage2, copyFile_ok _ _ _ _ hlk, hs,
    copyPluginSources, goBootstrap]

theorem c3_amended_witness :
    NoInvariantValidation c3fs ["home", "plugins"] ["s3", "gitspace-plugin.toml"]
      ["s3"] emptySourcesManifest :=
  c3_amended_no_validation c3fs ["home", "plugins"] ["s3", "gitspace-plugin.toml"]
    ["s3"] emptySourcesManifest 0o644 rfl

/-! ## Claim C5 -/

/-- Claim C5: resolving a `catalog://` name absent from the fetched catalog's
plugins mapping fails with the not-found error, leaves the filesystem
untouched, and never creates the temporary staging directory (the lookup
happens before `os.MkdirTemp`). -/
theorem c5_catalog_missing_entry (env : NetEnv) (fs : FS)
    (pluginsDir tempDir : FsPath) (catalogItem : String)
    (catalog : GitspaceCatalog)
    (hcat : fetchGitspaceCatalog env = some catalog)
    (hmiss : lookupStr catalog.plugins catalogItem = none) :
    installFromGitspaceCatalog env fs pluginsDir tempDir catalogItem =
      ⟨fs, some ("plugin " ++ catalogItem ++ " not found in Gitspace Catalog"),
       false⟩ := by
  simp [installFromGitspaceCatalog, hcat, hmiss]

def sampleCatalogPlugin : CatalogPlugin :=
  { name := "hello", path := "plugins/hello", version := "0.1.0",
    description := "sample plugin",
    repository := ⟨"git", "https://github.com/ssotops/gitspace-catalog"⟩ }

def sampleCatalog : GitspaceCatalog :=
  { catalog := { name := "gitspace-catalog", description := "catalog",
                 version := "1.0.0",
                 lastUpdated := ⟨"2024-01-01", "abc123"⟩ },
    plugins := [("hello", sampleCatalogPlugin)],
    templates := [] }

def c5env : NetEnv := ⟨some sampleCatalog, fun _ => none, fun _ => none⟩

theorem c5_witness :
    installFromGitspaceCatalog c5env [] ["home", "plugins"] ["tmp", "stage"]
      "nonexistent" =
      ⟨[], some ("plugin " ++ "nonexistent" ++ " not found in Gitspace Catalog"),
       false⟩ :=
  c5_catalog_missing_entry c5env [] ["home", "plugins"] ["tmp", "stage"]
    "nonexistent" sampleCatalog rfl (by decide)

/-! ## Claim C7 -/

/-- The three local-source shapes of `installPlugin` (src/plugins.go:95-117):
a directory uses `<dir>/gitspace-plugin.toml` with the directory as source
root; a `.toml` file is itself the manifest with its parent as source root;
any other existing file is rejected before any destination change. -/
def LocalSourceDispatch (fs : FS) (pluginsDir a : FsPath)
    (res : FS × Option String) : Prop :=
  (statLocal fs a = some StatKind.dir →
    res = installResolved fs pluginsDir (joinRel a ["gitspace-plugin.toml"]) a) ∧
  (statLocal fs a = some StatKind.file → pathExt a = ".toml" →
    res = installResolved fs pluginsDir a a.dropLast) ∧
  (statLocal fs a = some StatKind.file → pathExt a ≠ ".toml" →
    res = (fs, some "invalid source: must be a directory or .toml file"))

/-- Claim C7: an install source that is neither a catalog reference nor an
http(s) URL is treated as a local path: a directory source reads the manifest
from `<dir>/gitspace-plugin.toml` with the directory as source root, a
`.toml` file is the manifest with its parent as source root, and any other
shape fails with the invalid-local-source error with the filesystem
unchanged. -/
theorem c7_local_source_resolution (env : NetEnv) (fs : FS)
    (pluginsDir : FsPath) (absPath : String → FsPath) (tempDir : FsPath)
    (source : String)
    (hnc : isCatalogSource source = false)
    (hnr : isRemoteSource source = false) :
    LocalSourceDispatch fs pluginsDir (absPath source)
      (installPlugin env fs pluginsDir absPath tempDir source) := by
  have hd : installPlugin env fs pluginsDir absPath tempDir source =
      installPluginLocal fs pluginsDir (absPath source) := by
    simp [installPlugin, hnc, hnr]
  rw [hd]
  refine ⟨?_, ?_, ?_⟩
  · intro h1
    simp [installPluginLocal, h1]
  · intro h1 h2
    simp [installPluginLocal, h1, h2]
  · intro h1 h2
    simp [installPluginLocal, h1, h2]

def c7fs : FS := [(["s", "x.txt"], ⟨FileData.raw "hello", 0o644⟩)]

def emptyNetEnv : NetEnv := ⟨none, fun _ => none, fun _ => none⟩

theorem c7_witness :
    LocalSourceDispatch c7fs ["home", "plugins"] ["s", "x.txt"]
      (installPlugin emptyNetEnv c7fs ["home", "plugins"]
        (fun _ => ["s", "x.txt"]) ["tmp", "t"] "s/x.txt") :=
  c7_local_source_resolution emptyNetEnv c7fs ["home", "plugins"]
    (fun _ => ["s", "x.txt"]) ["tmp", "t"] "s/x.txt" (by decide) (by decide)

/-! ## Claim C10 -/

/-- Every file present under `pd` has permission mode `0644`. -/
def Mode644Under (pd : FsPath) (fs : FS) : Prop :=
  ∀ p, leadsTo pd p = true → ∀ g, lookupFS fs p = some g → g.mode = 0o644

theorem mode644_removeAll (fs : FS) (pd : FsPath) :
    Mode644Under pd (removeAll fs pd) := by
  intro p hp g hg
  rw [lookupFS_removeAll_under fs pd p hp] at hg
  cases hg

theorem mode644_writeFile (pd : FsPath) (fs : FS) (q : FsPath) (d : FileData)
    (hfs : Mode644Under pd fs) : Mode644Under pd (writeFile fs q d 0o644) := by
  intro p hp g hg
  rw [lookupFS_writeFile] at hg
  by_cases hqp : q = p
  · rw [if_pos hqp] at hg
    injection hg with h2
    subst h2
    show writeMode fs q 0o644 = 0o644
    unfold writeMode
    cases hl : lookupFS fs q with
    | none => rfl
    | some old =>
      subst hqp
      exact hfs _ hp old hl
  · rw [if_neg hqp] at hg
    exact hfs p hp g hg

theorem mode644_copyFile (pd : FsPath) (fs : FS) (src dst : FsPath)
    (hfs : Mode644Under pd fs) : Mode644Under pd (copyFile fs src dst).1 := by
  cases hl : lookupFS fs src with
  | none =>
    simp [copyFile, hl]
    exact hfs
  | some f =>
    simp [copyFile, hl]
    exact mode644_writeFile pd fs dst f.data hfs

theorem mode644_copyPluginSources (pd sd : FsPath) :
    ∀ (ss : List PluginSource) (fs : FS), Mode644Under pd fs →
      Mode644Under pd (copyPluginSources fs sd pd ss).1 := by
  intro ss
  induction ss with
  | nil =>
    intro fs h
    simpa [copyPluginSources] using h
  | cons s rest ih =>
    intro fs h
    cases hl : lookupFS fs (joinRel sd s.path) with
    | none =>
      simp [copyPluginSources, copyFile, hl]
      exact h
    | some f =>
      simp [copyPluginSources, copyFile, hl]
      exact ih _ (mode644_writeFile pd fs (joinRel pd s.path) f.data h)

theorem mode644_goBootstrap (pd : FsPath) (fs : FS) (h : Mode644Under pd fs) :
    Mode644Under pd (goBootstrap fs pd).1 := by
  cases hg : (lookupFS fs (joinRel pd ["go.mod"])).isSome with
  | true =>
    simp [goBootstrap, hg]
    exact mode644_writeFile _ _ _ _ h
  | false =>
    simp [goBootstrap, hg]
    exact mode644_writeFile _ _ _ _ (mode644_writeFile _ _ _ _ h)

theorem mode644_installStage2 (fs : FS) (pd mp sd : FsPath) (m : PluginManifest) :
    Mode644Under pd (installStage2 fs pd mp sd m).1 := by
  have h0 : Mode644Under pd (removeAll fs pd) := mode644_removeAll fs pd
  unfold installStage2
  cases hc : copyFile (removeAll fs pd) mp (joinRel pd ["gitspace-plugin.toml"]) with
  | mk fs2 e2 =>
    have h2 : Mode644Under pd fs2 := by
      have hx := mode644_copyFile pd (removeAll fs pd) mp
        (joinRel pd ["gitspace-plugin.toml"]) h0
      rw [hc] at hx
      exact hx
    cases e2 with
    | some e => exact h2
    | none =>
      show Mode644Under pd
        ((match copyPluginSources fs2 sd pd m.sources with
          | (fs3, some e) => (fs3, some e)
          | (fs3, none) => goBootstrap fs3 pd).1)
      cases hs : copyPluginSources fs2 sd pd m.sources with
      | mk fs3 e3 =>
        have h3 : Mode644Under pd fs3 := by
          have hx := mode644_copyPluginSources pd sd m.sources fs2 h2
          rw [hs] at hx
          exact hx
        cases e3 with
        | some e => exact h3
        | none => exact mode644_goBootstrap pd fs3 h3

/-- Claim C10: once the manifest has been loaded, every file that the
installation leaves under the destination directory
`<pluginsDir>/<manifest.name>` — the copied manifest, every copied declared
source, and the bootstrapped `go.mod` — carries permission mode `0644`,
whatever the mode of the originating file was (so an executable bit on an
entry point is not preserved). -/
theorem c10_copied_files_mode_0644 (fs : FS)
    (pluginsDir manifestPath sourceDir : FsPath) (m : PluginManifest)
    (hload : loadPluginManifest fs manifestPath = Except.ok m) :
    Mode644Under (joinRel pluginsDir [m.name])
      (installResolved fs pluginsDir manifestPath sourceDir).1 := by
  simp [installResolved, hload]
  exact mode644_installStage2 fs _ manifestPath sourceDir m

/-- A plugin whose single source carries the executable mode `0755`. -/
def c10manifest : PluginManifest :=
  { name := "tool", version := "1.0.0", description := "", author := "",
    sources := [{ path := ["bin", "run.sh"], entry_point := "run.sh",
                  repository := ⟨"", "", ""⟩ }] }

def c10fs : FS :=
  [ (["s10", "gitspace-plugin.toml"], ⟨FileData.manifestDoc c10manifest, 0o600⟩),
    (["s10", "bin", "run.sh"], ⟨FileData.raw "#!/bin/sh", 0o755⟩) ]

theorem c10_witness :
    Mode644Under (joinRel ["home", "plugins"] ["tool"])
      (installResolved c10fs ["home", "plugins"] ["s10", "gitspace-plugin.toml"]
        ["s10"]).1 :=
  c10_copied_files_mode_0644 c10fs ["home", "plugins"]
    ["s10", "gitspace-plugin.toml"] ["s10"] c10manifest rfl

/-! ## Claim C2 -/

theorem isSome_writeFile_iff (fs : FS) (p : FsPath) (d : FileData) (perm : Nat)
    (q : FsPath) :
    (lookupFS (writeFile fs p d perm) q).isSome = true ↔
      (p = q ∨ (lookupFS fs q).isSome = true) := by
  rw [lookupFS_writeFile]
  by_cases h : p = q
  · simp [h]
  · simp [h]

theorem copyFile_ok2 (fs : FS) (src dst : FsPath) (d : FileData) (md : Nat)
    (h : lookupFS fs src = some ⟨d, md⟩) :
    copyFile fs src dst = (writeFile fs dst d 0o644, none) := by
  simp [copyFile, h]

theorem copyPluginSources_ok_isSome_iff (sd pd : FsPath) :
    ∀ (ss : List PluginSource) (fs g : FS),
      copyPluginSources fs sd pd ss = (g, none) →
      ∀ q, ((lookupFS g q).isSome = true ↔
        ((lookupFS fs q).isSome = true ∨
          q ∈ ss.map (fun s => joinRel pd s.path))) := by
  intro ss
  induction ss with
  | nil =>
    intro fs g h q
    simp [copyPluginSources] at h
    subst h
    simp
  | cons s rest ih =>
    intro fs g h q
    cases hl : lookupFS fs (joinRel sd s.path) with
    | none =>
      simp [copyPluginSources, copyFile, hl] at h
    | some f =>
      simp only [copyPluginSources, copyFile, hl] at h
      have hrec := ih _ _ h q
      have hcomm : (joinRel pd s.path = q) ↔ (q = joinRel pd s.path) := eq_comm
      rw [hrec, isSome_writeFile_iff, hcomm]
      simp only [List.map_cons, List.mem_cons]
      tauto

theorem goBootstrap_isSome_iff (fs : FS) (pd : FsPath) (q : FsPath) :
    (lookupFS (goBootstrap fs pd).1 q).isSome = true ↔
      (joinRel pd ["go.mod"] = q ∨ (lookupFS fs q).isSome = true) := by
  cases hgm : (lookupFS fs (joinRel pd ["go.mod"])).isSome with
  | true =>
    simp [goBootstrap, hgm, isSome_writeFile_iff]
  | false =>
    simp [goBootstrap, hgm, isSome_writeFile_iff]

/-- The amended C2 post-condition: on success the destination directory
contains exactly the copied manifest, the destination paths of the declared
sources, and the `go.mod` left by the Go-module bootstrapping step — and
nothing else. -/
def InstallExact (m : PluginManifest) (pd : FsPath) (g : FS) : Prop :=
  ∀ p, leadsTo pd p = true →
    ((lookupFS g p).isSome = true ↔
      (joinRel pd ["gitspace-plugin.toml"] = p ∨
       p ∈ m.sources.map (fun s => joinRel pd s.path) ∨
       joinRel pd ["go.mod"] = p))

/-- Claim C2 (amended): after a successful install the destination directory
`<pluginsDir>/<manifest.name>` contains exactly the manifest copy, the
declared sources, and additionally the `go.mod` created or updated by the Go
module bootstrapping — the claim's "nothing else" fails only on that
`go.mod`. -/
theorem c2_destination_contents_amended (fs : FS)
    (pluginsDir manifestPath sourceDir : FsPath) (m : PluginManifest) (g : FS)
    (hload : loadPluginManifest fs manifestPath = Except.ok m)
    (hrun : installResolved fs pluginsDir manifestPath sourceDir = (g, none)) :
    InstallExact m (joinRel pluginsDir [m.name]) g := by
  have hred : installResolved fs pluginsDir manifestPath sourceDir =
      installStage2 fs (joinRel pluginsDir [m.name]) manifestPath sourceDir m := by
    simp [installResolved, hload]
  rw [hred] at hrun
  unfold installStage2 at hrun
  cases hc : copyFile (removeAll fs (joinRel pluginsDir [m.name])) manifestPath
      (joinRel (joinRel pluginsDir [m.name]) ["gitspace-plugin.toml"]) with
  | mk fs2 e2 =>
    rw [hc] at hrun
    cases e2 with
    | some e =>
      replace hrun : ((fs2, some ("failed to copy manifest file: " ++ e)) :
          FS × Option String) = (g, none) := hrun
      simp at hrun
    | none =>
      replace hrun :
          (match copyPluginSources fs2 sourceDir (joinRel pluginsDir [m.name])
              m.sources with
            | (fs3, some e) => (fs3, some e)
            | (fs3, none) => goBootstrap fs3 (joinRel pluginsDir [m.name])) =
            (g, none) := hrun
      cases hl : lookupFS (removeAll fs (joinRel pluginsDir [m.name])) manifestPath with
      | none =>
        rw [copyFile_missing _ _ _ hl] at hc
        simp at hc
      | some f =>
        obtain ⟨d, md⟩ := f
        rw [copyFile_ok2 _ _ _ _ _ hl] at hc
        have hfs2 : fs2 = writeFile (removeAll fs (joinRel pluginsDir [m.name]))
            (joinRel (joinRel pluginsDir [m.name]) ["gitspace-plugin.toml"]) d 0o644 := by
          have hx := congrArg Prod.fst hc
          simpa using hx.symm
        cases hs : copyPluginSources fs2 sourceDir (joinRel pluginsDir [m.name])
            m.sources with
        | mk fs3 e3 =>
          rw [hs] at hrun
          cases e3 with
          | some e =>
            replace hrun : ((fs3, some e) : FS × Option String) = (g, none) := hrun
            simp at hrun
          | none =>
            replace hrun : goBootstrap fs3 (joinRel pluginsDir [m.name]) =
                (g, none) := hrun
            have hg1 : g = (goBootstrap fs3 (joinRel pluginsDir [m.name])).1 := by
              rw [hrun]
            intro p hp
            have hiff3 := copyPluginSources_ok_isSome_iff sourceDir
              (joinRel pluginsDir [m.name]) m.sources fs2 fs3 hs p
            have hiff2 : (lookupFS fs2 p).isSome = true ↔
                (joinRel (joinRel pluginsDir [m.name]) ["gitspace-plugin.toml"] = p ∨
                  (lookupFS (removeAll fs (joinRel pluginsDir [m.name])) p).isSome = true) := by
              rw [hfs2]
              exact isSome_writeFile_iff _ _ _ _ _
            have h0 : (lookupFS (removeAll fs (joinRel pluginsDir [m.name])) p).isSome = false := by
              rw [lookupFS_removeAll_under _ _ _ hp]
              rfl
            rw [hg1, goBootstrap_isSome_iff, hiff3, hiff2]
            simp only [h0]
            tauto

/-- Manifest and staging root for the C2 state: one declared source. -/
def helloManifest : PluginManifest :=
  { name := "hello", version := "0.1.0", description := "", author := "",
    sources := [{ path := ["main.go"], entry_point := "main",
                  repository := ⟨"", "", ""⟩ }] }

def c2fs : FS :=
  [ (["s2", "gitspace-plugin.toml"], ⟨FileData.manifestDoc helloManifest, 0o644⟩),
    (["s2", "main.go"], ⟨FileData.raw "package main", 0o644⟩) ]

/-- Claim C2 counterexample: a successful install from a manifest declaring
only `main.go` leaves `go.mod` in the destination directory — a file that is
neither the manifest nor a declared source — so the destination does not
contain "exactly the manifest file plus the files declared ... and nothing
else". -/
theorem c2_counterexample :
    (installResolved c2fs ["home", "plugins"] ["s2", "gitspace-plugin.toml"]
      ["s2"]).2 = none ∧
    (lookupFS (installResolved c2fs ["home", "plugins"]
        ["s2", "gitspace-plugin.toml"] ["s2"]).1
      ["home", "plugins", "hello", "go.mod"]).isSome = true ∧
    (["home", "plugins", "hello", "go.mod"] ≠
      joinRel ["home", "plugins", "hello"] ["gitspace-plugin.toml"]) ∧
    helloManifest.sources.all
      (fun s => decide (joinRel ["home", "plugins", "hello"] s.path ≠
        ["home", "plugins", "hello", "go.mod"])) = true :=
  ⟨rfl, rfl, by decide, by decide⟩

def c2resultFS : FS :=
  (installResolved c2fs ["home", "plugins"] ["s2", "gitspace-plugin.toml"] ["s2"]).1

theorem c2_amended_witness :
    InstallExact helloManifest (joinRel ["home", "plugins"] ["hello"]) c2resultFS :=
  c2_destination_contents_amended c2fs ["home", "plugins"]
    ["s2", "gitspace-plugin.toml"] ["s2"] helloManifest c2resultFS rfl rfl

/-! ## Claim C8 -/

/-- The state claimed by C8 after a missing source file: the install result
carries an error naming the missing path, while the already-copied manifest
and the destination copies of the sources processed before the failure are
still present (no rollback). -/
def AbortedPartialInstall (s : PluginSource) (pd : FsPath)
    (pre : List PluginSource) (r : FS × Option String) : Prop :=
  r.2 = some ("failed to copy plugin file " ++ pathToString s.path ++ ": " ++
    "failed to read source file") ∧
  (lookupFS r.1 (joinRel pd ["gitspace-plugin.toml"])).isSome = true ∧
  ∀ t ∈ pre, (lookupFS r.1 (joinRel pd t.path)).isSome = true

theorem copyPluginSources_abort (sd pd : FsPath) (hpd : cleanRel pd = true)
    (s : PluginSource) (post : List PluginSource)
    (hsOut : leadsTo pd (joinRel sd s.path) = false) :
    ∀ (pre : List PluginSource) (fs : FS),
      (∀ t ∈ pre, cleanRel t.path = true) →
      (∀ t ∈ pre, leadsTo pd (joinRel sd t.path) = false) →
      (∀ t ∈ pre, (lookupFS fs (joinRel sd t.path)).isSome = true) →
      lookupFS fs (joinRel sd s.path) = none →
      (copyPluginSources fs sd pd (pre ++ s :: post)).2 =
        some ("failed to copy plugin file " ++ pathToString s.path ++ ": " ++
          "failed to read source file") ∧
      (∀ q, (lookupFS fs q).isSome = true →
        (lookupFS (copyPluginSources fs sd pd (pre ++ s :: post)).1 q).isSome = true) ∧
      (∀ t ∈ pre,
        (lookupFS (copyPluginSources fs sd pd (pre ++ s :: post)).1
          (joinRel pd t.path)).isSome = true) := by
  intro pre
  induction pre with
  | nil =>
    intro fs _ _ _ hmiss
    refine ⟨?_, ?_, ?_⟩
    · simp [copyPluginSources, copyFile, hmiss]
    · intro q hq
      simpa [copyPluginSources, copyFile, hmiss] using hq
    · intro t ht
      simp at ht
  | cons t pre ih =>
    intro fs hclean hout hpre hmiss
    have hclean_t : cleanRel t.path = true := hclean t (by simp)
    have hpre_t : (lookupFS fs (joinRel sd t.path)).isSome = true :=
      hpre t (by simp)
    obtain ⟨d, md, hf⟩ : ∃ d md, lookupFS fs (joinRel sd t.path) = some ⟨d, md⟩ := by
      cases hx : lookupFS fs (joinRel sd t.path) with
      | none => rw [hx] at hpre_t; cases hpre_t
      | some f =>
        obtain ⟨d0, m0⟩ := f
        exact ⟨d0, m0, rfl⟩
    have hdp_under : leadsTo pd (joinRel pd t.path) = true := by
      rw [joinRel_of_clean pd t.path hpd hclean_t]
      exact leadsTo_append pd t.path
    have hstep : copyPluginSources fs sd pd ((t :: pre) ++ s :: post) =
        copyPluginSources (writeFile fs (joinRel pd t.path) d 0o644) sd pd
          (pre ++ s :: post) := by
      simp [copyPluginSources, copyFile, hf]
    have hkeep : ∀ r, leadsTo pd r = false →
        lookupFS (writeFile fs (joinRel pd t.path) d 0o644) r = lookupFS fs r := by
      intro r hr
      rw [lookupFS_writeFile]
      rw [if_neg]
      intro hcontra
      exact (ne_of_leadsTo_ne pd r (joinRel pd t.path) hr hdp_under) hcontra.symm
    have h1 : ∀ u ∈ pre,
        (lookupFS (writeFile fs (joinRel pd t.path) d 0o644)
          (joinRel sd u.path)).isSome = true := by
      intro u hu
      rw [hkeep _ (hout u (by simp [hu]))]
      exact hpre u (by simp [hu])
    have h2 : lookupFS (writeFile fs (joinRel pd t.path) d 0o644)
        (joinRel sd s.path) = none := by
      rw [hkeep _ hsOut]
      exact hmiss
    have IH := ih (writeFile fs (joinRel pd t.path) d 0o644)
      (fun u hu => hclean u (by simp [hu]))
      (fun u hu => hout u (by simp [hu])) h1 h2
    refine ⟨?_, ?_, ?_⟩
    · rw [hstep]
      exact IH.1
    · intro q hq
      rw [hstep]
      exact IH.2.1 q (isSome_lookupFS_writeFile fs (joinRel pd t.path) d 0o644 q hq)
    · intro u hu
      rw [hstep]
      rcases List.mem_cons.mp hu with rfl | hu2
      · apply IH.2.1
        rw [lookupFS_writeFile, if_pos rfl]
        rfl
      · exact IH.2.2 u hu2

/-- Claim C8: when a declared source file is missing from the staged root,
installation aborts with an error naming that path, and the destination is
left in its partially-written state: the copied manifest and the destination
copies of all sources processed before the missing one remain (no
rollback). -/
theorem c8_missing_source_partial_state (fs : FS)
    (pluginsDir manifestPath sourceDir : FsPath) (m : PluginManifest)
    (pre : List PluginSource) (s : PluginSource) (post : List PluginSource)
    (hload : loadPluginManifest fs manifestPath = Except.ok m)
    (hsplit : m.sources = pre ++ s :: post)
    (hmpOut : leadsTo (joinRel pluginsDir [m.name]) manifestPath = false)
    (hcleanPre : ∀ t ∈ pre, cleanRel t.path = true)
    (hout : ∀ t ∈ m.sources,
      leadsTo (joinRel pluginsDir [m.name]) (joinRel sourceDir t.path) = false)
    (hpre : ∀ t ∈ pre, (lookupFS fs (joinRel sourceDir t.path)).isSome = true)
    (hmiss : lookupFS fs (joinRel sourceDir s.path) = none) :
    AbortedPartialInstall s (joinRel pluginsDir [m.name]) pre
      (installResolved fs pluginsDir manifestPath sourceDir) := by
  obtain ⟨md, hmf⟩ := loadPluginManifest_ok_lookup fs manifestPath m hload
  have hpd : cleanRel (joinRel pluginsDir [m.name]) = true := cleanRel_cleanPath _
  have hmf1 : lookupFS (removeAll fs (joinRel pluginsDir [m.name])) manifestPath =
      some ⟨FileData.manifestDoc m, md⟩ := by
    rw [lookupFS_removeAll_not_under _ _ _ hmpOut]
    exact hmf
  have hdmp_under : leadsTo (joinRel pluginsDir [m.name])
      (joinRel (joinRel pluginsDir [m.name]) ["gitspace-plugin.toml"]) = true := by
    rw [joinRel_of_clean _ _ hpd (by decide)]
    exact leadsTo_append _ _
  have hkeep2 : ∀ r, leadsTo (joinRel pluginsDir [m.name]) r = false →
      lookupFS (writeFile (removeAll fs (joinRel pluginsDir [m.name]))
        (joinRel (joinRel pluginsDir [m.name]) ["gitspace-plugin.toml"])
        (FileData.manifestDoc m) 0o644) r = lookupFS fs r := by
    intro r hr
    rw [lookupFS_writeFile, if_neg, lookupFS_removeAll_not_under _ _ _ hr]
    intro hcontra
    exact (ne_of_leadsTo_ne _ r _ hr hdmp_under) hcontra.symm
  have hmemPre : ∀ t ∈ pre, t ∈ m.sources := by
    intro t ht
    rw [hsplit]
    exact List.mem_append_left _ ht
  have hmemS : s ∈ m.sources := by
    rw [hsplit]
    exact List.mem_append_right _ (List.mem_cons_self s post)
  have hpre2 : ∀ t ∈ pre,
      (lookupFS (writeFile (removeAll fs (joinRel pluginsDir [m.name]))
        (joinRel (joinRel pluginsDir [m.name]) ["gitspace-plugin.toml"])
        (FileData.manifestDoc m) 0o644) (joinRel sourceDir t.path)).isSome = true := by
    intro t ht
    rw [hkeep2 _ (hout t (hmemPre t ht))]
    exact hpre t ht
  have hmiss2 : lookupFS (writeFile (removeAll fs (joinRel pluginsDir [m.name]))
      (joinRel (joinRel pluginsDir [m.name]) ["gitspace-plugin.toml"])
      (FileData.manifestDoc m) 0o644) (joinRel sourceDir s.path) = none := by
    rw [hkeep2 _ (hout s hmemS)]
    exact hmiss
  have houtPre : ∀ t ∈ pre,
      leadsTo (joinRel pluginsDir [m.name]) (joinRel sourceDir t.path) = false :=
    fun t ht => hout t (hmemPre t ht)
  have habort := copyPluginSources_abort sourceDir (joinRel pluginsDir [m.name])
    hpd s post (hout s hmemS) pre
    (writeFile (removeAll fs (joinRel pluginsDir [m.name]))
      (joinRel (joinRel pluginsDir [m.name]) ["gitspace-plugin.toml"])
      (FileData.manifestDoc m) 0o644)
    hcleanPre houtPre hpre2 hmiss2
  have hstage : installResolved fs pluginsDir manifestPath sourceDir =
      copyPluginSources (writeFile (removeAll fs (joinRel pluginsDir [m.name]))
        (joinRel (joinRel pluginsDir [m.name]) ["gitspace-plugin.toml"])
        (FileData.manifestDoc m) 0o644) sourceDir (joinRel pluginsDir [m.name])
        (pre ++ s :: post) := by
    have hred : installResolved fs pluginsDir manifestPath sourceDir =
        installStage2 fs (joinRel pluginsDir [m.name]) manifestPath sourceDir m := by
      simp [installResolved, hload]
    rw [hred]
    unfold installStage2
    rw [copyFile_ok2 _ _ _ _ _ hmf1]
    show (match copyPluginSources (writeFile (removeAll fs (joinRel pluginsDir [m.name]))
        (joinRel (joinRel pluginsDir [m.name]) ["gitspace-plugin.toml"])
        (FileData.manifestDoc m) 0o644) sourceDir (joinRel pluginsDir [m.name])
        m.sources with
      | (fs3, some e) => (fs3, some e)
      | (fs3, none) => goBootstrap fs3 (joinRel pluginsDir [m.name])) = _
    rw [hsplit]
    cases hcp : copyPluginSources (writeFile (removeAll fs (joinRel pluginsDir [m.name]))
        (joinRel (joinRel pluginsDir [m.name]) ["gitspace-plugin.toml"])
        (FileData.manifestDoc m) 0o644) sourceDir (joinRel pluginsDir [m.name])
        (pre ++ s :: post) with
    | mk fs3 e3 =>
      cases e3 with
      | some e => rfl
      | none =>
        exfalso
        have hx := habort.1
        rw [hcp] at hx
        cases hx
  refine ⟨?_, ?_, ?_⟩
  · rw [hstage]
    exact habort.1
  · rw [hstage]
    apply habort.2.1
    rw [lookupFS_writeFile, if_pos rfl]
    rfl
  · intro t ht
    rw [hstage]
    exact habort.2.2 t ht

/-- Three-source manifest whose middle source is missing from the staging
root. -/
def c8manifest : PluginManifest :=
  { name := "partial", version := "1.0.0", description := "", author := "",
    sources :=
      [ { path := ["a.go"], entry_point := "a", repository := ⟨"", "", ""⟩ },
        { path := ["b.go"], entry_point := "b", repository := ⟨"", "", ""⟩ },
        { path := ["c.go"], entry_point := "c", repository := ⟨"", "", ""⟩ } ] }

def c8fs : FS :=
  [ (["s8", "gitspace-plugin.toml"], ⟨FileData.manifestDoc c8manifest, 0o644⟩),
    (["s8", "a.go"], ⟨FileData.raw "package a", 0o644⟩),
    (["s8", "c.go"], ⟨FileData.raw "package c", 0o644⟩) ]

theorem c8_witness :
    AbortedPartialInstall
      { path := ["b.go"], entry_point := "b", repository := ⟨"", "", ""⟩ }
      (joinRel ["home", "plugins"] ["partial"])
      [{ path := ["a.go"], entry_point := "a", repository := ⟨"", "", ""⟩ }]
      (installResolved c8fs ["home", "plugins"] ["s8", "gitspace-plugin.toml"]
        ["s8"]) :=
  c8_missing_source_partial_state c8fs ["home", "plugins"]
    ["s8", "gitspace-plugin.toml"] ["s8"] c8manifest
    [{ path := ["a.go"], entry_point := "a", repository := ⟨"", "", ""⟩ }]
    { path := ["b.go"], entry_point := "b", repository := ⟨"", "", ""⟩ }
    [{ path := ["c.go"], entry_point := "c", repository := ⟨"", "", ""⟩ }]
    rfl rfl (by decide) (by decide) (by decide) (by decide) rfl

/-! ## Claim C6 -/

theorem downloadSources_fail (env : NetEnv) (tempDir : FsPath)
    (pl : CatalogPlugin) :
    ∀ (ss : List PluginSource) (fs : FS),
      (∃ s ∈ ss, env.download (catalogSourceURL pl s) = none) →
      ∃ g e, downloadSources env fs tempDir pl ss = (g, some e) := by
  intro ss
  induction ss with
  | nil =>
    intro fs h
    simp at h
  | cons s rest ih =>
    intro fs h
    cases hd : env.download (catalogSourceURL pl s) with
    | none =>
      refine ⟨fs, "failed to download source file " ++ pathToString s.path ++
        ": " ++ "bad status", ?_⟩
      simp [downloadSources, downloadFile, hd]
    | some d =>
      obtain ⟨t, ht, htd⟩ := h
      rcases List.mem_cons.mp ht with rfl | ht2
      · rw [hd] at htd
        cases htd
      · obtain ⟨g, e, hge⟩ :=
          ih (writeFile fs (joinRel tempDir s.path) d 0o666) ⟨t, ht2, htd⟩
        exact ⟨g, e, by simp [downloadSources, downloadFile, hd, hge]⟩

/-- The cleanup guarantee of C6: the resolution ended in an error, the
temporary directory had been created, and nothing below it remains on disk
(the deferred `os.RemoveAll` ran). -/
def CatalogCleanup (tempDir : FsPath) (r : CatalogResult) : Prop :=
  r.err.isSome = true ∧ r.tempCreated = true ∧
  ∀ p, leadsTo tempDir p = true → lookupFS r.fs p = none

/-- Claim C6: during catalog resolution, a failed download of the manifest or
of any declared source file aborts the whole resolution with an error, and
the temporary staging directory created for it is removed — nothing below
`tempDir` survives in the final filesystem. -/
theorem c6_download_failure_cleanup (env : NetEnv) (fs : FS)
    (pluginsDir tempDir : FsPath) (catalogItem : String)
    (catalog : GitspaceCatalog) (pl : CatalogPlugin)
    (hcat : fetchGitspaceCatalog env = some catalog)
    (hfound : lookupStr catalog.plugins catalogItem = some pl)
    (hpath : ¬ pl.path = "")
    (hfail : env.download (catalogManifestURL pl) = none ∨
      (∃ m : PluginManifest,
        env.download (catalogManifestURL pl) = some (FileData.manifestDoc m) ∧
        ∃ s ∈ m.sources, env.download (catalogSourceURL pl s) = none)) :
    CatalogCleanup tempDir
      (installFromGitspaceCatalog env fs pluginsDir tempDir catalogItem) := by
  rcases hfail with hA | ⟨m, hdl, hex⟩
  · have hres : installFromGitspaceCatalog env fs pluginsDir tempDir catalogItem =
        ⟨removeAll fs tempDir,
         some ("failed to download gitspace-plugin.toml: " ++ "bad status"),
         true⟩ := by
      simp [installFromGitspaceCatalog, hcat, hfound, hpath, downloadFile, hA]
    rw [hres]
    exact ⟨rfl, rfl, fun p hp => lookupFS_removeAll_under _ _ _ hp⟩
  · have hload1 : loadPluginManifest
        (writeFile fs (joinRel tempDir ["gitspace-plugin.toml"])
          (FileData.manifestDoc m) 0o666)
        (joinRel tempDir ["gitspace-plugin.toml"]) = Except.ok m := by
      unfold loadPluginManifest
      rw [lookupFS_writeFile, if_pos rfl]
    obtain ⟨g, e, hge⟩ := downloadSources_fail env tempDir pl m.sources
      (writeFile fs (joinRel tempDir ["gitspace-plugin.toml"])
        (FileData.manifestDoc m) 0o666) hex
    have hres : installFromGitspaceCatalog env fs pluginsDir tempDir catalogItem =
        ⟨removeAll g tempDir, some e, true⟩ := by
      simp [installFromGitspaceCatalog, hcat, hfound, hpath, downloadFile, hdl,
        hload1, hge]
    rw [hres]
    exact ⟨rfl, rfl, fun p hp => lookupFS_removeAll_under _ _ _ hp⟩

def c6env : NetEnv := ⟨some sampleCatalog, fun _ => none, fun _ => none⟩

theorem c6_witness :
    CatalogCleanup ["tmp", "stage6"]
      (installFromGitspaceCatalog c6env [] ["home", "plugins"] ["tmp", "stage6"]
        "hello") :=
  c6_download_failure_cleanup c6env [] ["home", "plugins"] ["tmp", "stage6"]
    "hello" sampleCatalog sampleCatalogPlugin rfl (by decide) (by decide)
    (Or.inl rfl)

/-! ## Claim C4 -/

/-- Two filesystems agree on every path below `pd`. -/
def AgreeUnder (pd : FsPath) (a b : FS) : Prop :=
  ∀ p, leadsTo pd p = true → lookupFS a p = lookupFS b p

theorem agreeUnder_writeFile (pd : FsPath) (a b : FS) (q : FsPath)
    (d : FileData) (perm : Nat) (hab : AgreeUnder pd a b)
    (hq : lookupFS a q = lookupFS b q) :
    AgreeUnder pd (writeFile a q d perm) (writeFile b q d perm) := by
  intro p hp
  rw [lookupFS_writeFile, lookupFS_writeFile]
  by_cases hqp : q = p
  · rw [if_pos hqp, if_pos hqp]
    have hm : writeMode a q perm = writeMode b q perm := by
      unfold writeMode
      rw [hq]
    rw [hm]
  · rw [if_neg hqp, if_neg hqp]
    exact hab p hp

theorem copyPluginSources_agree (sd pd : FsPath) (hpd : cleanRel pd = true) :
    ∀ (ss : List PluginSource) (a b : FS),
      AgreeUnder pd a b →
      (∀ s ∈ ss, lookupFS a (joinRel sd s.path) = lookupFS b (joinRel sd s.path)) →
      (∀ s ∈ ss, cleanRel s.path = true) →
      (∀ s ∈ ss, leadsTo pd (joinRel sd s.path) = false) →
      (copyPluginSources a sd pd ss).2 = (copyPluginSources b sd pd ss).2 ∧
      AgreeUnder pd (copyPluginSources a sd pd ss).1 (copyPluginSources b sd pd ss).1 := by
  intro ss
  induction ss with
  | nil =>
    intro a b hab _ _ _
    exact ⟨rfl, hab⟩
  | cons s rest ih =>
    intro a b hab hsrc hclean hout
    have hs_eq : lookupFS a (joinRel sd s.path) = lookupFS b (joinRel sd s.path) :=
      hsrc s (by simp)
    have hdp : leadsTo pd (joinRel pd s.path) = true := by
      rw [joinRel_of_clean pd s.path hpd (hclean s (by simp))]
      exact leadsTo_append pd s.path
    cases hla : lookupFS a (joinRel sd s.path) with
    | none =>
      rw [hla] at hs_eq
      have hlb : lookupFS b (joinRel sd s.path) = none := hs_eq.symm
      have ha : copyPluginSources a sd pd (s :: rest) =
          (a, some ("failed to copy plugin file " ++ pathToString s.path ++ ": " ++
            "failed to read source file")) := by
        simp [copyPluginSources, copyFile, hla]
      have hb : copyPluginSources b sd pd (s :: rest) =
          (b, some ("failed to copy plugin file " ++ pathToString s.path ++ ": " ++
            "failed to read source file")) := by
        simp [copyPluginSources, copyFile, hlb]
      rw [ha, hb]
      exact ⟨rfl, hab⟩
    | some f =>
      obtain ⟨d0, m0⟩ := f
      rw [hla] at hs_eq
      have hlb : lookupFS b (joinRel sd s.path) = some ⟨d0, m0⟩ := hs_eq.symm
      have ha : copyPluginSources a sd pd (s :: rest) =
          copyPluginSources (writeFile a (joinRel pd s.path) d0 0o644) sd pd rest := by
        simp [copyPluginSources, copyFile, hla]
      have hb : copyPluginSources b sd pd (s :: rest) =
          copyPluginSources (writeFile b (joinRel pd s.path) d0 0o644) sd pd rest := by
        simp [copyPluginSources, copyFile, hlb]
      have hab2 : AgreeUnder pd (writeFile a (joinRel pd s.path) d0 0o644)
          (writeFile b (joinRel pd s.path) d0 0o644) :=
        agreeUnder_writeFile pd a b (joinRel pd s.path) d0 0o644 hab (hab _ hdp)
      have hsrc2 : ∀ t ∈ rest,
          lookupFS (writeFile a (joinRel pd s.path) d0 0o644) (joinRel sd t.path) =
          lookupFS (writeFile b (joinRel pd s.path) d0 0o644) (joinRel sd t.path) := by
        intro t ht
        rw [lookupFS_writeFile, lookupFS_writeFile]
        have hne : ¬ (joinRel pd s.path = joinRel sd t.path) := by
          intro hcontra
          have hx := hout t (by simp [ht])
          rw [← hcontra, hdp] at hx
          cases hx
        rw [if_neg hne, if_neg hne]
        exact hsrc t (by simp [ht])
      have IH := ih _ _ hab2 hsrc2 (fun t ht => hclean t (by simp [ht]))
        (fun t ht => hout t (by simp [ht]))
      rw [ha, hb]
      exact IH

theorem goBootstrap_agree (pd : FsPath) (a b : FS) (hpd : cleanRel pd = true)
    (hab : AgreeUnder pd a b) :
    (goBootstrap a pd).2 = (goBootstrap b pd).2 ∧
    AgreeUnder pd (goBootstrap a pd).1 (goBootstrap b pd).1 := by
  have hgm : leadsTo pd (joinRel pd ["go.mod"]) = true := by
    rw [joinRel_of_clean pd _ hpd (by decide)]
    exact leadsTo_append _ _
  have heq : lookupFS a (joinRel pd ["go.mod"]) = lookupFS b (joinRel pd ["go.mod"]) :=
    hab _ hgm
  refine ⟨rfl, ?_⟩
  cases hg : (lookupFS a (joinRel pd ["go.mod"])).isSome with
  | true =>
    have hgb : (lookupFS b (joinRel pd ["go.mod"])).isSome = true := by
      rw [← heq]
      exact hg
    have ha : (goBootstrap a pd).1 = writeFile a (joinRel pd ["go.mod"])
        (FileData.raw "module github.com/ssotops/gitspace/plugins go-edited") 0o644 := by
      simp [goBootstrap, hg]
    have hb : (goBootstrap b pd).1 = writeFile b (joinRel pd ["go.mod"])
        (FileData.raw "module github.com/ssotops/gitspace/plugins go-edited") 0o644 := by
      simp [goBootstrap, hgb]
    rw [ha, hb]
    exact agreeUnder_writeFile pd a b _ _ _ hab heq
  | false =>
    have hgb : (lookupFS b (joinRel pd ["go.mod"])).isSome = false := by
      rw [← heq]
      exact hg
    have ha : (goBootstrap a pd).1 = writeFile
        (writeFile a (joinRel pd ["go.mod"])
          (FileData.raw "module github.com/ssotops/gitspace/plugins") 0o644)
        (joinRel pd ["go.mod"])
        (FileData.raw "module github.com/ssotops/gitspace/plugins go-edited") 0o644 := by
      simp [goBootstrap, hg]
    have hb : (goBootstrap b pd).1 = writeFile
        (writeFile b (joinRel pd ["go.mod"])
          (FileData.raw "module github.com/ssotops/gitspace/plugins") 0o644)
        (joinRel pd ["go.mod"])
        (FileData.raw "module github.com/ssotops/gitspace/plugins go-edited") 0o644 := by
      simp [goBootstrap, hgb]
    have hab1 := agreeUnder_writeFile pd a b (joinRel pd ["go.mod"])
      (FileData.raw "module github.com/ssotops/gitspace/plugins") 0o644 hab heq
    have heq1 : lookupFS (writeFile a (joinRel pd ["go.mod"])
        (FileData.raw "module github.com/ssotops/gitspace/plugins") 0o644)
        (joinRel pd ["go.mod"]) =
        lookupFS (writeFile b (joinRel pd ["go.mod"])
          (FileData.raw "module github.com/ssotops/gitspace/plugins") 0o644)
          (joinRel pd ["go.mod"]) := by
      rw [lookupFS_writeFile, lookupFS_writeFile, if_pos rfl, if_pos rfl]
      have hm : writeMode a (joinRel pd ["go.mod"]) 0o644 =
          writeMode b (joinRel pd ["go.mod"]) 0o644 := by
        unfold writeMode
        rw [heq]
      rw [hm]
    rw [ha, hb]
    exact agreeUnder_writeFile pd _ _ (joinRel pd ["go.mod"]) _ 0o644 hab1 heq1

theorem installStage2_agree (a b : FS) (pd mp sd : FsPath) (m : PluginManifest)
    (hpd : cleanRel pd = true)
    (hmp_eq : lookupFS a mp = lookupFS b mp)
    (hmpOut : leadsTo pd mp = false)
    (hsrc_eq : ∀ s ∈ m.sources,
      lookupFS a (joinRel sd s.path) = lookupFS b (joinRel sd s.path))
    (hclean : ∀ s ∈ m.sources, cleanRel s.path = true)
    (hout : ∀ s ∈ m.sources, leadsTo pd (joinRel sd s.path) = false) :
    (installStage2 a pd mp sd m).2 = (installStage2 b pd mp sd m).2 ∧
    AgreeUnder pd (installStage2 a pd mp sd m).1 (installStage2 b pd mp sd m).1 := by
  have hab0 : AgreeUnder pd (removeAll a pd) (removeAll b pd) := by
    intro p hp
    rw [lookupFS_removeAll_under _ _ _ hp, lookupFS_removeAll_under _ _ _ hp]
  have hmp1 : lookupFS (removeAll a pd) mp = lookupFS (removeAll b pd) mp := by
    rw [lookupFS_removeAll_not_under _ _ _ hmpOut,
      lookupFS_removeAll_not_under _ _ _ hmpOut]
    exact hmp_eq
  have hdmp : leadsTo pd (joinRel pd ["gitspace-plugin.toml"]) = true := by
    rw [joinRel_of_clean pd _ hpd (by decide)]
    exact leadsTo_append _ _
  cases hla : lookupFS (removeAll a pd) mp with
  | none =>
    rw [hla] at hmp1
    have hlb : lookupFS (removeAll b pd) mp = none := hmp1.symm
    have ha : installStage2 a pd mp sd m = (removeAll a pd,
        some ("failed to copy manifest file: " ++ "failed to read source file")) := by
      unfold installStage2
      rw [copyFile_missing _ _ _ hla]
    have hb : installStage2 b pd mp sd m = (removeAll b pd,
        some ("failed to copy manifest file: " ++ "failed to read source file")) := by
      unfold installStage2
      rw [copyFile_missing _ _ _ hlb]
    rw [ha, hb]
    exact ⟨rfl, hab0⟩
  | some f =>
    obtain ⟨d0, m0⟩ := f
    rw [hla] at hmp1
    have hlb : lookupFS (removeAll b pd) mp = some ⟨d0, m0⟩ := hmp1.symm
    have ha : installStage2 a pd mp sd m =
        (match copyPluginSources (writeFile (removeAll a pd)
            (joinRel pd ["gitspace-plugin.toml"]) d0 0o644) sd pd m.sources with
          | (fs3, some e) => (fs3, some e)
          | (fs3, none) => goBootstrap fs3 pd) := by
      unfold installStage2
      rw [copyFile_ok2 _ _ _ _ _ hla]
    have hb : installStage2 b pd mp sd m =
        (match copyPluginSources (writeFile (removeAll b pd)
            (joinRel pd ["gitspace-plugin.toml"]) d0 0o644) sd pd m.sources with
          | (fs3, some e) => (fs3, some e)
          | (fs3, none) => goBootstrap fs3 pd) := by
      unfold installStage2
      rw [copyFile_ok2 _ _ _ _ _ hlb]
    have hab1 : AgreeUnder pd
        (writeFile (removeAll a pd) (joinRel pd ["gitspace-plugin.toml"]) d0 0o644)
        (writeFile (removeAll b pd) (joinRel pd ["gitspace-plugin.toml"]) d0 0o644) :=
      agreeUnder_writeFile pd _ _ _ _ _ hab0 (hab0 _ hdmp)
    have hsrc1 : ∀ s ∈ m.sources,
        lookupFS (writeFile (removeAll a pd)
          (joinRel pd ["gitspace-plugin.toml"]) d0 0o644) (joinRel sd s.path) =
        lookupFS (writeFile (removeAll b pd)
          (joinRel pd ["gitspace-plugin.toml"]) d0 0o644) (joinRel sd s.path) := by
      intro s hs
      rw [lookupFS_writeFile, lookupFS_writeFile]
      have hne : ¬ (joinRel pd ["gitspace-plugin.toml"] = joinRel sd s.path) := by
        intro hcontra
        have hx := hout s hs
        rw [← hcontra, hdmp] at hx
        cases hx
      rw [if_neg hne, if_neg hne]
      rw [lookupFS_removeAll_not_under _ _ _ (hout s hs),
        lookupFS_removeAll_not_under _ _ _ (hout s hs)]
      exact hsrc_eq s hs
    have hcp := copyPluginSources_agree sd pd hpd m.sources _ _ hab1 hsrc1 hclean hout
    rw [ha, hb]
    cases hca : copyPluginSources (writeFile (removeAll a pd)
        (joinRel pd ["gitspace-plugin.toml"]) d0 0o644) sd pd m.sources with
    | mk ga ea =>
      cases hcb : copyPluginSources (writeFile (removeAll b pd)
          (joinRel pd ["gitspace-plugin.toml"]) d0 0o644) sd pd m.sources with
      | mk gb eb =>
        have he : ea = eb := by
          have hx := hcp.1
          rw [hca, hcb] at hx
          exact hx
        have hg : AgreeUnder pd ga gb := by
          have hx := hcp.2
          rw [hca, hcb] at hx
          exact hx
        subst he
        cases ea with
        | some e => exact ⟨rfl, hg⟩
        | none => exact goBootstrap_agree pd ga gb hpd hg

theorem copyPluginSources_frame (sd pd : FsPath) (hpd : cleanRel pd = true) :
    ∀ (ss : List PluginSource) (fs : FS) (q : FsPath),
      (∀ s ∈ ss, cleanRel s.path = true) →
      leadsTo pd q = false →
      lookupFS (copyPluginSources fs sd pd ss).1 q = lookupFS fs q := by
  intro ss
  induction ss with
  | nil =>
    intro fs q _ _
    rfl
  | cons s rest ih =>
    intro fs q hclean hq
    have hdp : leadsTo pd (joinRel pd s.path) = true := by
      rw [joinRel_of_clean pd _ hpd (hclean s (by simp))]
      exact leadsTo_append _ _
    have hne : ¬ (joinRel pd s.path = q) := by
      intro hcontra
      exact (ne_of_leadsTo_ne pd q _ hq hdp) hcontra.symm
    cases hl : lookupFS fs (joinRel sd s.path) with
    | none =>
      have ha : copyPluginSources fs sd pd (s :: rest) =
          (fs, some ("failed to copy plugin file " ++ pathToString s.path ++ ": " ++
            "failed to read source file")) := by
        simp [copyPluginSources, copyFile, hl]
      rw [ha]
    | some f =>
      obtain ⟨d0, m0⟩ := f
      have ha : copyPluginSources fs sd pd (s :: rest) =
          copyPluginSources (writeFile fs (joinRel pd s.path) d0 0o644) sd pd rest := by
        simp [copyPluginSources, copyFile, hl]
      rw [ha, ih _ q (fun t ht => hclean t (by simp [ht])) hq]
      rw [lookupFS_writeFile, if_neg hne]

theorem goBootstrap_frame (pd : FsPath) (hpd : cleanRel pd = true) (fs : FS)
    (q : FsPath) (hq : leadsTo pd q = false) :
    lookupFS (goBootstrap fs pd).1 q = lookupFS fs q := by
  have hgm : leadsTo pd (joinRel pd ["go.mod"]) = true := by
    rw [joinRel_of_clean pd _ hpd (by decide)]
    exact leadsTo_append _ _
  have hne : ¬ (joinRel pd ["go.mod"] = q) := by
    intro hcontra
    exact (ne_of_leadsTo_ne pd q _ hq hgm) hcontra.symm
  cases hg : (lookupFS fs (joinRel pd ["go.mod"])).isSome with
  | true =>
    have ha : (goBootstrap fs pd).1 = writeFile fs (joinRel pd ["go.mod"])
        (FileData.raw "module github.com/ssotops/gitspace/plugins go-edited") 0o644 := by
      simp [goBootstrap, hg]
    rw [ha, lookupFS_writeFile, if_neg hne]
  | false =>
    have ha : (goBootstrap fs pd).1 = writeFile
        (writeFile fs (joinRel pd ["go.mod"])
          (FileData.raw "module github.com/ssotops/gitspace/plugins") 0o644)
        (joinRel pd ["go.mod"])
        (FileData.raw "module github.com/ssotops/gitspace/plugins go-edited") 0o644 := by
      simp [goBootstrap, hg]
    rw [ha, lookupFS_writeFile, if_neg hne, lookupFS_writeFile, if_neg hne]

theorem installStage2_frame (fs : FS) (pd mp sd : FsPath) (m : PluginManifest)
    (hpd : cleanRel pd = true)
    (hclean : ∀ s ∈ m.sources, cleanRel s.path = true)
    (q : FsPath) (hq : leadsTo pd q = false) :
    lookupFS (installStage2 fs pd mp sd m).1 q = lookupFS fs q := by
  have hdmp : leadsTo pd (joinRel pd ["gitspace-plugin.toml"]) = true := by
    rw [joinRel_of_clean pd _ hpd (by decide)]
    exact leadsTo_append _ _
  have hne : ¬ (joinRel pd ["gitspace-plugin.toml"] = q) := by
    intro hcontra
    exact (ne_of_leadsTo_ne pd q _ hq hdmp) hcontra.symm
  cases hla : lookupFS (removeAll fs pd) mp with
  | none =>
    have ha : installStage2 fs pd mp sd m = (removeAll fs pd,
        some ("failed to copy manifest file: " ++ "failed to read source file")) := by
      unfold installStage2
      rw [copyFile_missing _ _ _ hla]
    rw [ha]
    exact lookupFS_removeAll_not_under fs pd q hq
  | some f =>
    obtain ⟨d0, m0⟩ := f
    have ha : installStage2 fs pd mp sd m =
        (match copyPluginSources (writeFile (removeAll fs pd)
            (joinRel pd ["gitspace-plugin.toml"]) d0 0o644) sd pd m.sources with
          | (fs3, some e) => (fs3, some e)
          | (fs3, none) => goBootstrap fs3 pd) := by
      unfold installStage2
      rw [copyFile_ok2 _ _ _ _ _ hla]
    rw [ha]
    have hwq : lookupFS (writeFile (removeAll fs pd)
        (joinRel pd ["gitspace-plugin.toml"]) d0 0o644) q = lookupFS fs q := by
      rw [lookupFS_writeFile, if_neg hne, lookupFS_removeAll_not_under _ _ _ hq]
    cases hcp : copyPluginSources (writeFile (removeAll fs pd)
        (joinRel pd ["gitspace-plugin.toml"]) d0 0o644) sd pd m.sources with
    | mk g e =>
      have hg : lookupFS g q = lookupFS fs q := by
        have hx := copyPluginSources_frame sd pd hpd m.sources
          (writeFile (removeAll fs pd) (joinRel pd ["gitspace-plugin.toml"]) d0 0o644)
          q hclean hq
        rw [hcp] at hx
        rw [← hwq]
        exact hx
      cases e with
      | some e2 => exact hg
      | none =>
        show lookupFS (goBootstrap g pd).1 q = lookupFS fs q
        rw [goBootstrap_frame pd hpd g q hq]
        exact hg

theorem installResolved_frame (fs : FS) (pluginsDir mp sd : FsPath)
    (m : PluginManifest)
    (hload : loadPluginManifest fs mp = Except.ok m)
    (hclean : ∀ s ∈ m.sources, cleanRel s.path = true)
    (q : FsPath) (hq : leadsTo (joinRel pluginsDir [m.name]) q = false) :
    lookupFS (installResolved fs pluginsDir mp sd).1 q = lookupFS fs q := by
  have hred : installResolved fs pluginsDir mp sd =
      installStage2 fs (joinRel pluginsDir [m.name]) mp sd m := by
    simp [installResolved, hload]
  rw [hred]
  exact installStage2_frame fs _ mp sd m (cleanRel_cleanPath _) hclean q hq

theorem installResolved_agree (a b : FS) (pluginsDir mp sd : FsPath)
    (m : PluginManifest)
    (hload_a : loadPluginManifest a mp = Except.ok m)
    (hmp_eq : lookupFS a mp = lookupFS b mp)
    (hmpOut : leadsTo (joinRel pluginsDir [m.name]) mp = false)
    (hsrc_eq : ∀ s ∈ m.sources,
      lookupFS a (joinRel sd s.path) = lookupFS b (joinRel sd s.path))
    (hclean : ∀ s ∈ m.sources, cleanRel s.path = true)
    (hout : ∀ s ∈ m.sources,
      leadsTo (joinRel pluginsDir [m.name]) (joinRel sd s.path) = false) :
    (installResolved a pluginsDir mp sd).2 = (installResolved b pluginsDir mp sd).2 ∧
    AgreeUnder (joinRel pluginsDir [m.name])
      (installResolved a pluginsDir mp sd).1 (installResolved b pluginsDir mp sd).1 := by
  have hload_b : loadPluginManifest b mp = Except.ok m := by
    rw [← loadPluginManifest_congr a b mp hmp_eq]
    exact hload_a
  have hra : installResolved a pluginsDir mp sd =
      installStage2 a (joinRel pluginsDir [m.name]) mp sd m := by
    simp [installResolved, hload_a]
  have hrb : installResolved b pluginsDir mp sd =
      installStage2 b (joinRel pluginsDir [m.name]) mp sd m := by
    simp [installResolved, hload_b]
  rw [hra, hrb]
  exact installStage2_agree a b _ mp sd m (cleanRel_cleanPath _) hmp_eq hmpOut
    hsrc_eq hclean hout

/-- The C4 conclusion: the second install of the same source succeeds, and the
destination subtree it leaves agrees pointwise with the one the first install
left. -/
def SecondInstallAgrees (pd : FsPath) (fs1 : FS) (pluginsDir mp sd : FsPath) : Prop :=
  (installResolved fs1 pluginsDir mp sd).2 = none ∧
  AgreeUnder pd (installResolved fs1 pluginsDir mp sd).1 fs1

/-- Claim C4: installing the same plugin source twice in a row is idempotent —
the second install (which first removes the destination directory entirely
and recreates it) succeeds and leaves the destination directory
`<pluginsDir>/<manifest.name>` in exactly the state the first install left
(same files, same contents, same modes), provided the staged source lies
outside the destination directory and declares traversal-free paths. -/
theorem c4_reinstall_idempotent (fs fs1 : FS) (pluginsDir mp sd : FsPath)
    (m : PluginManifest)
    (hload : loadPluginManifest fs mp = Except.ok m)
    (hclean : ∀ s ∈ m.sources, cleanRel s.path = true)
    (hmpOut : leadsTo (joinRel pluginsDir [m.name]) mp = false)
    (hout : ∀ s ∈ m.sources,
      leadsTo (joinRel pluginsDir [m.name]) (joinRel sd s.path) = false)
    (h1 : installResolved fs pluginsDir mp sd = (fs1, none)) :
    SecondInstallAgrees (joinRel pluginsDir [m.name]) fs1 pluginsDir mp sd := by
  have hframe : ∀ q, leadsTo (joinRel pluginsDir [m.name]) q = false →
      lookupFS fs1 q = lookupFS fs q := by
    intro q hq
    have hx := installResolved_frame fs pluginsDir mp sd m hload hclean q hq
    rw [h1] at hx
    exact hx
  have hmp_eq : lookupFS fs1 mp = lookupFS fs mp := hframe mp hmpOut
  have hsrc_eq : ∀ s ∈ m.sources,
      lookupFS fs1 (joinRel sd s.path) = lookupFS fs (joinRel sd s.path) :=
    fun s hs => hframe _ (hout s hs)
  have hload1 : loadPluginManifest fs1 mp = Except.ok m := by
    rw [loadPluginManifest_congr fs1 fs mp hmp_eq]
    exact hload
  have hagree := installResolved_agree fs1 fs pluginsDir mp sd m hload1 hmp_eq
    hmpOut hsrc_eq hclean hout
  constructor
  · rw [hagree.1, h1]
  · have hx := hagree.2
    rw [h1] at hx
    exact hx

def c4manifest : PluginManifest :=
  { name := "idem", version := "1.0.0", description := "", author := "",
    sources := [{ path := ["main.go"], entry_point := "main",
                  repository := ⟨"", "", ""⟩ }] }

def c4fs : FS :=
  [ (["s4i", "gitspace-plugin.toml"], ⟨FileData.manifestDoc c4manifest, 0o644⟩),
    (["s4i", "main.go"], ⟨FileData.raw "package main", 0o644⟩) ]

def c4fs1 : FS :=
  (installResolved c4fs ["home", "plugins"] ["s4i", "gitspace-plugin.toml"] ["s4i"]).1

theorem c4_witness :
    SecondInstallAgrees (joinRel ["home", "plugins"] ["idem"]) c4fs1
      ["home", "plugins"] ["s4i", "gitspace-plugin.toml"] ["s4i"] :=
  c4_reinstall_idempotent c4fs c4fs1 ["home", "plugins"]
    ["s4i", "gitspace-plugin.toml"] ["s4i"] c4manifest rfl (by decide)
    (by decide) (by decide) rfl
